import Mathlib

/-!
Verification of the cardinality-estimation test orchestrator in
`cetest/cetest.go` (repository OptimizerTester): query-type taxonomy,
configuration decoding, the per-instance worker loop, the result
collector, error aggregation and resource cleanup, as a shallow
embedding in Lean.

Machine integers are modelled as `Nat` (none of the relevant code can
overflow, and Go `/` and `%` on nonnegative ints agree with `Nat`
division and modulo).  Go errors are modelled as `String` payloads in
`Except`.  A Go run-time panic (which crashes the whole process) is
modelled as a distinct outcome, separate from errors recorded in the
per-instance error slots.
-/

/-- Errors carried by Go `error` values are modelled as strings. -/
abbrev CEErr := String

/-- QueryType from cetest.go, lines 43-56: a closed enumeration of the
10 benchmark query shapes. -/
inductive QueryType where
  | QTSingleColPointQuery : QueryType
  | QTSingleColRangeQuery : QueryType
  | QTMultiColsPointQuery : QueryType
  | QTMultiColsRangeQueryEQPrefix : QueryType
  | QTMultiColsRangeQuery : QueryType
  | QTMCVPointQuery : QueryType
  | QTLCVPointQuery : QueryType
  | QTJoinEQ : QueryType
  | QTJoinNonEQ : QueryType
  | QTGroup : QueryType
deriving DecidableEq, Repr

open QueryType

/-- qtNameMap from cetest.go, lines 58-71.  The Go map is total on the
10 variants, so it is embedded as a function. -/
def qtNameMap (qt : QueryType) : String :=
  match qt with
  | QTSingleColPointQuery => "single-col-point-query"
  | QTSingleColRangeQuery => "single-col-range-query"
  | QTMultiColsPointQuery => "multi-cols-point-query"
  | QueryType.QTMultiColsRangeQueryEQPrefix => "multi-cols-range-query-eq-prefix"
  | QTMultiColsRangeQuery => "multi-cols-range-query"
  | QTMCVPointQuery => "most-common-value-point-query"
  | QTLCVPointQuery => "least-common-value-point-query"
  | QTJoinEQ => "join-eq"
  | QTJoinNonEQ => "join-non-eq"
  | QTGroup => "group"

/-- QueryType.String from cetest.go, lines 73-75. -/
def QueryType.toName (qt : QueryType) : String := qtNameMap qt

/-- The 10 variants in declaration order (the Go `for k, v := range
qtNameMap` iterates in unspecified order; since the 10 names are
pairwise distinct, the matching entry is unique and the iteration
order does not affect the result, so a fixed order is faithful). -/
def allQueryTypes : List QueryType :=
  [QTSingleColPointQuery, QTSingleColRangeQuery, QTMultiColsPointQuery,
   QueryType.QTMultiColsRangeQueryEQPrefix, QTMultiColsRangeQuery,
   QTMCVPointQuery, QTLCVPointQuery, QTJoinEQ, QTJoinNonEQ, QTGroup]

/-- QueryType.UnmarshalText from cetest.go, lines 77-85: look for a
variant whose registered name equals the input text; if none matches,
fail with an unknown-query-type error (no defaulting). -/
def QueryType.unmarshalText (text : String) : Except CEErr QueryType :=
  match allQueryTypes.find? (fun qt => qtNameMap qt = text) with
  | some qt => Except.ok qt
  | none => Except.error ("unknown query-type=" ++ text)

/-- The four dataset kinds registered in datasetMap (cetest.go, lines
87-92).  Their constructors live outside the file under verification;
only key membership and which constructor is selected matter here. -/
inductive DatasetKind where
  | zipfx : DatasetKind
  | imdb : DatasetKind
  | tpcc : DatasetKind
  | mock : DatasetKind
deriving DecidableEq, Repr

/-- datasetMap from cetest.go, lines 87-92, as a lookup: `none` means
the key is absent, in which case Go map indexing yields the zero value
(a nil function), and calling it panics. -/
def datasetMap (name : String) : Option DatasetKind :=
  if name = "zipfx" then some DatasetKind.zipfx
  else if name = "imdb" then some DatasetKind.imdb
  else if name = "tpcc" then some DatasetKind.tpcc
  else if name = "mock" then some DatasetKind.mock
  else none

/-- strings.ToLower as DecodeOption uses it (cetest.go, line 35),
embedded as a per-character lowercase map (Go lowercases each rune; on
the ASCII dataset names involved the two agree). -/
def goToLower (s : String) : String := ⟨s.data.map Char.toLower⟩

/-- The dataset-name validation loop of DecodeOption (cetest.go, lines
34-38): each configured dataset name is lowercased and looked up in
datasetMap; an absent key fails decoding with the (sic) "unknown
dateset" error. -/
def validateDatasetNames : List String → Except CEErr Unit
  | [] => Except.ok ()
  | n :: rest =>
    if (datasetMap (goToLower n)).isSome then validateDatasetNames rest
    else Except.error ("unknown dateset=" ++ n)

/-- The dataset-construction lookup of RunCETestWithConfig (cetest.go,
line 119): `datasetMap[opt.Datasets[j].Name]` without lowercasing.
`none` means the constructor fetched is nil and the call panics. -/
def constructorLookup (name : String) : Option DatasetKind := datasetMap name

/-- Modelled from the spec: `EstResult` (struct defined outside
cetest.go; spec section 3) holds the actual and estimated row counts of
one executed case plus the version of the instance that produced it. -/
structure EstResult where
  actRows : Nat
  estRows : Nat
  version : String
deriving DecidableEq, Repr

/-- How a worker goroutine stops before finishing its full iteration:
either it records an error into its insErrs slot and returns
(cetest.go, lines 138-140 and 146-149), or it hits a Go run-time panic
(integer modulo by zero in the progress condition, line 143), which
aborts the whole process. -/
inductive WorkerStop where
  | recorded : CEErr → WorkerStop
  | panicked : WorkerStop
deriving DecidableEq, Repr

/-- The progress condition of cetest.go, line 143:
`i%1000 == 0 || i%(opt.N/20) == 0`.  Go `||` short-circuits, so the
second operand is evaluated only when `i%1000 != 0`; evaluating it
panics exactly when `opt.N/20 == 0` (integer division), i.e. when
`N < 20`. -/
def progressPanics (i n : Nat) : Bool := (i % 1000 != 0) && (n / 20 == 0)

/-- The inner case loop of the worker (cetest.go, lines 142-152): for
each generated query, evaluate the progress condition (which may
panic), run the case, and on success append the result.  Results are
tagged with their 0-based case index `i`.  `exec` embeds
`runOneEstCase(ins, q)` for this worker's instance. -/
def runCaseLoop (exec : String → Except CEErr EstResult) (n : Nat) :
    Nat → List String → List (Nat × EstResult) × Option WorkerStop
  | _, [] => ([], none)
  | i, q :: qs =>
    if progressPanics i n then ([], some WorkerStop.panicked)
    else
      match exec q with
      | Except.error e => ([], some (WorkerStop.recorded e))
      | Except.ok r =>
        let rest := runCaseLoop exec n (i + 1) qs
        ((i, r) :: rest.1, rest.2)

/-- The query-type loop of the worker (cetest.go, lines 136-153): for
each query type in configured order, generate `n` cases and run them;
a generation error is recorded and stops the worker.  Appends are
tagged with the query-type index. -/
def runQTLoop (gen : QueryType → Except CEErr (List String))
    (exec : String → Except CEErr EstResult) (n : Nat) :
    Nat → List QueryType → List (Nat × Nat × EstResult) × Option WorkerStop
  | _, [] => ([], none)
  | qtIdx, qt :: qts =>
    match gen qt with
    | Except.error e => ([], some (WorkerStop.recorded e))
    | Except.ok qs =>
      let inner := runCaseLoop exec n 0 qs
      let appends := inner.1.map (fun p => (qtIdx, p.1, p.2))
      match inner.2 with
      | some stop => (appends, some stop)
      | none =>
        let rest := runQTLoop gen exec n (qtIdx + 1) qts
        (appends ++ rest.1, rest.2)

/-- The dataset loop of the worker (cetest.go, lines 134-154): for each
dataset index below the configured dataset count, run the query-type
loop against that dataset.  `gen dsIdx qt` embeds
`datasets[insIdx][dsIdx].GenCases(n, qt)`.  The first argument of the
recursion is the current dataset index, the second the number of
datasets still to process. -/
def runDSLoop (gen : Nat → QueryType → Except CEErr (List String))
    (exec : String → Except CEErr EstResult) (n : Nat) (qts : List QueryType) :
    Nat → Nat → List (Nat × Nat × Nat × EstResult) × Option WorkerStop
  | _, 0 => ([], none)
  | dsIdx, remaining + 1 =>
    let inner := runQTLoop (gen dsIdx) exec n 0 qts
    let appends := inner.1.map (fun p => (dsIdx, p.1, p.2.1, p.2.2))
    match inner.2 with
    | some stop => (appends, some stop)
    | none =>
      let rest := runDSLoop gen exec n qts (dsIdx + 1) remaining
      (appends ++ rest.1, rest.2)

/-- One worker goroutine (cetest.go, lines 131-155) for a fixed
instance: its ordered append trace, each entry tagged
(datasetIdx, queryTypeIdx, caseIdx), and how it stopped (`none` means
it completed all datasets and query types). -/
def runWorker (gen : Nat → QueryType → Except CEErr (List String))
    (exec : String → Except CEErr EstResult) (n : Nat) (qts : List QueryType)
    (nDs : Nat) : List (Nat × Nat × Nat × EstResult) × Option WorkerStop :=
  runDSLoop gen exec n qts 0 nDs

/-- Modelled from the spec: the EstResultCollector (defined outside
cetest.go; spec section 4.4) is a 3-D grid of append-only sequences of
EstResult addressed by (instanceIdx, datasetIdx, queryTypeIdx). -/
structure EstResultCollector where
  cells : Nat → Nat → Nat → List EstResult

/-- Modelled from the spec: NewEstResultCollector constructs the grid
with every cell empty (the three cardinalities fix the in-range index
space; out-of-range indices are never used by the orchestrator). -/
def NewEstResultCollector (_nIns _nDs _nQt : Nat) : EstResultCollector :=
  ⟨fun _ _ _ => []⟩

/-- Modelled from the spec: AddEstResult appends one observation to the
addressed cell and leaves every other cell unchanged. -/
def EstResultCollector.addEstResult (c : EstResultCollector) (i d q : Nat)
    (r : EstResult) : EstResultCollector :=
  ⟨fun i' d' q' =>
    if i' = i ∧ d' = d ∧ q' = q then c.cells i d q ++ [r]
    else c.cells i' d' q'⟩

/-- Replays one worker's append trace into the collector, in trace
order, at that worker's fixed instance index (cetest.go, line 151:
`collector.AddEstResult(insIdx, dsIdx, qtIdx, estResult)`). -/
def applyTrace (insIdx : Nat) :
    List (Nat × Nat × Nat × EstResult) → EstResultCollector → EstResultCollector
  | [], c => c
  | (d, q, _, r) :: rest, c =>
    applyTrace insIdx rest (c.addEstResult insIdx d q r)

/-- Replays the traces of all workers, each under its own instance
index.  Cells are partitioned by instance index, so the per-cell
contents do not depend on how the concurrent workers interleave; the
sequential replay is a faithful model of the join. -/
def applyAllTraces :
    List (Nat × List (Nat × Nat × Nat × EstResult)) → EstResultCollector → EstResultCollector
  | [], c => c
  | (i, tr) :: rest, c => applyAllTraces rest (applyTrace i tr c)

/-- The append trace of the worker for instance `insIdx`, given the
per-instance generation and execution behaviour. -/
def workerTrace (gens : Nat → Nat → QueryType → Except CEErr (List String))
    (execs : Nat → String → Except CEErr EstResult) (n : Nat)
    (qts : List QueryType) (nDs insIdx : Nat) :
    List (Nat × Nat × Nat × EstResult) :=
  (runWorker (gens insIdx) (execs insIdx) n qts nDs).1

/-- How the worker for instance `insIdx` stopped. -/
def workerStop (gens : Nat → Nat → QueryType → Except CEErr (List String))
    (execs : Nat → String → Except CEErr EstResult) (n : Nat)
    (qts : List QueryType) (nDs insIdx : Nat) : Option WorkerStop :=
  (runWorker (gens insIdx) (execs insIdx) n qts nDs).2

/-- The collector after all workers have joined: every worker's trace
replayed at its instance index over the freshly constructed grid
(cetest.go, lines 126-157). -/
def runCollector (gens : Nat → Nat → QueryType → Except CEErr (List String))
    (execs : Nat → String → Except CEErr EstResult) (nIns nDs : Nat)
    (qts : List QueryType) (n : Nat) : EstResultCollector :=
  applyAllTraces
    ((List.range nIns).map (fun i => (i, workerTrace gens execs n qts nDs i)))
    (NewEstResultCollector nIns nDs qts.length)

/-- The contents a single trace contributes to cell (d, q), in trace
order. -/
def traceCell (tr : List (Nat × Nat × Nat × EstResult)) (d q : Nat) :
    List EstResult :=
  (tr.filter (fun p => p.1 == d && p.2.1 == q)).map (fun p => p.2.2.2)

/-- The post-join error inspection of cetest.go, lines 159-163: scan
the per-instance error slots in instance-index order and return the
first error found. -/
def firstInsError : List (Option CEErr) → Option CEErr
  | [] => none
  | some e :: _ => some e
  | none :: rest => firstInsError rest

/-- Lines 159-165 of cetest.go: fail the run with the first recorded
instance error; otherwise hand over to reporting
(`GenPErrorBarChartsReport`, embedded as the `report` argument). -/
def finalizeRun (insErrs : List (Option CEErr)) (report : Except CEErr Unit) :
    Except CEErr Unit :=
  match firstInsError insErrs with
  | some e => Except.error e
  | none => report

/-- The decoded configuration fields of Option (cetest.go, lines 20-26)
that the orchestrator consumes.  Instance connection options are
summarised by their count. -/
structure CEConfig where
  datasetNames : List String
  qts : List QueryType
  nIns : Nat
  n : Nat

/-- DecodeOption from cetest.go, lines 29-40: first the external toml
decode (embedded as the `tomlDecode` argument), then the in-source
dataset-name validation loop. -/
def DecodeOption (tomlDecode : String → Except CEErr CEConfig)
    (content : String) : Except CEErr CEConfig :=
  match tomlDecode content with
  | Except.error e => Except.error e
  | Except.ok cfg =>
    match validateDatasetNames cfg.datasetNames with
    | Except.error e => Except.error e
    | Except.ok _ => Except.ok cfg

/-- Outcome of a run-orchestration phase that can also panic (the nil
dataset-constructor call of cetest.go, line 119). -/
inductive PhaseResult where
  | ok : PhaseResult
  | err : CEErr → PhaseResult
  | panic : PhaseResult
deriving DecidableEq, Repr

/-- The inner dataset-construction loop of cetest.go, lines 117-123,
for one instance: look the dataset name up in datasetMap WITHOUT
lowercasing; an absent key yields a nil constructor and calling it
panics; otherwise the constructor itself may fail, aborting the run
with its error.  `construct j` embeds the constructor call for dataset
index `j` on this instance. -/
def constructRow (construct : Nat → Except CEErr Unit) :
    Nat → List String → PhaseResult
  | _, [] => PhaseResult.ok
  | j, name :: rest =>
    match constructorLookup name with
    | none => PhaseResult.panic
    | some _ =>
      match construct j with
      | Except.error e => PhaseResult.err e
      | Except.ok _ => constructRow construct (j + 1) rest

/-- The outer dataset-construction loop of cetest.go, lines 114-124:
one row per instance.  The first argument of the recursion is the
current instance index, the second the number of instances still to
process. -/
def constructPhase (construct : Nat → Nat → Except CEErr Unit)
    (names : List String) : Nat → Nat → PhaseResult
  | _, 0 => PhaseResult.ok
  | i, remaining + 1 =>
    match constructRow (construct i) 0 names with
    | PhaseResult.ok => constructPhase construct names (i + 1) remaining
    | PhaseResult.err e => PhaseResult.err e
    | PhaseResult.panic => PhaseResult.panic

/-- How a whole run of RunCETestWithConfig ends: a normal return
(success or error), a panic in the main goroutine (nil dataset
constructor — deferred closes still run while it unwinds), or a panic
inside a worker goroutine (progress condition — the process aborts and
the main goroutine's deferred closes never run). -/
inductive RunOutcome where
  | ok : RunOutcome
  | failed : CEErr → RunOutcome
  | panickedMain : RunOutcome
  | panickedWorker : RunOutcome
deriving DecidableEq, Repr

/-- The environment of one run: every external collaborator of
RunCETestWithConfig.  `readFile` embeds ioutil.ReadFile, `tomlDecode`
the toml library, `connectOK` tidb.ConnectToInstances (modelled from
the spec as all-or-nothing: on failure no connection is left open),
`construct i j` the dataset constructor for instance i and dataset j,
`gens`/`execs` case generation and execution per instance, and
`report` GenPErrorBarChartsReport. -/
structure OrchEnv where
  readFile : Except CEErr String
  tomlDecode : String → Except CEErr CEConfig
  connectOK : Except CEErr Unit
  construct : Nat → Nat → Except CEErr Unit
  gens : Nat → Nat → QueryType → Except CEErr (List String)
  execs : Nat → String → Except CEErr EstResult
  report : Except CEErr Unit

/-- The observable result of one run: its outcome, how many instance
connections were opened, how many times each of them was closed, and
the collector contents at the end (or at the crash). -/
structure RunResult where
  outcome : RunOutcome
  connected : Nat
  closes : List Nat
  collector : EstResultCollector

/-- RunCETestWithConfig from cetest.go, lines 94-166: read and decode
the configuration, connect the instances, register the deferred closes,
construct every dataset, fan the workers out, join, surface the first
recorded instance error, and otherwise report.  The `closes` ledger
counts, per connected instance, how many times its Close ran: the defer
of lines 108-112 runs once per instance on every function exit and on
main-goroutine panic unwinding, but not when a worker goroutine
panics (Go aborts the process without running other goroutines'
deferred calls). -/
def RunCETestWithConfig (env : OrchEnv) : RunResult :=
  match env.readFile with
  | Except.error e =>
    ⟨RunOutcome.failed e, 0, [], NewEstResultCollector 0 0 0⟩
  | Except.ok content =>
    match DecodeOption env.tomlDecode content with
    | Except.error e =>
      ⟨RunOutcome.failed e, 0, [], NewEstResultCollector 0 0 0⟩
    | Except.ok cfg =>
      match env.connectOK with
      | Except.error e =>
        ⟨RunOutcome.failed e, 0, [], NewEstResultCollector 0 0 0⟩
      | Except.ok _ =>
        let nIns := cfg.nIns
        let closedOnce := List.replicate nIns 1
        match constructPhase env.construct cfg.datasetNames 0 nIns with
        | PhaseResult.panic =>
          ⟨RunOutcome.panickedMain, nIns, closedOnce,
           NewEstResultCollector nIns cfg.datasetNames.length cfg.qts.length⟩
        | PhaseResult.err e =>
          ⟨RunOutcome.failed e, nIns, closedOnce,
           NewEstResultCollector nIns cfg.datasetNames.length cfg.qts.length⟩
        | PhaseResult.ok =>
          let stops := (List.range nIns).map
            (fun i => workerStop env.gens env.execs cfg.n cfg.qts cfg.datasetNames.length i)
          let coll := runCollector env.gens env.execs nIns cfg.datasetNames.length cfg.qts cfg.n
          if stops.any (fun s => s = some WorkerStop.panicked) then
            ⟨RunOutcome.panickedWorker, nIns, List.replicate nIns 0, coll⟩
          else
            let insErrs := stops.map (fun s =>
              match s with
              | some (WorkerStop.recorded e) => some e
              | _ => none)
            match finalizeRun insErrs env.report with
            | Except.error e => ⟨RunOutcome.failed e, nIns, closedOnce, coll⟩
            | Except.ok _ => ⟨RunOutcome.ok, nIns, closedOnce, coll⟩

/-- The tabular result of one EXPLAIN ANALYZE call, as the Case Runner
observes it through the database/sql rows handle: the column-type
introspection outcome, the per-row Scan outcomes (string-typed
columns), and whether Close fails. -/
structure QueryRows where
  columnTypes : Except CEErr (List String)
  scans : List (Except CEErr (List String))
  closeErr : Option CEErr

/-- A connected instance as the Case Runner sees it (tidb.Instance,
declared outside cetest.go; spec section 4.2): execute a SQL string,
report a fixed version string. -/
structure DBInstance where
  query : String → Except CEErr QueryRows
  version : String

/-- The row-scanning loop of runOneEstCase (cetest.go, lines 189-200):
scan each row into string columns, failing on the first Scan error. -/
def scanRows : List (Except CEErr (List String)) → Except CEErr (List (List String))
  | [] => Except.ok []
  | Except.error e :: _ => Except.error e
  | Except.ok cols :: rest =>
    match scanRows rest with
    | Except.error e => Except.error e
    | Except.ok rs => Except.ok (cols :: rs)

/-- runOneEstCase from cetest.go, lines 168-203: send the query wrapped
as EXPLAIN ANALYZE, scan the result rows into string columns, and hand
them with the instance version to the extraction step.
`ExtractEstResult` is defined outside cetest.go and is embedded as the
`extract` argument (spec section 4.3: a pure function of the plan rows
and the version).  The slow-query check (line 175) only gates a print
and does not affect the result.  The deferred rows.Close (lines
178-182) overrides the returned error only when the body succeeded. -/
def runOneEstCase
    (extract : List (List String) → String → Except CEErr EstResult)
    (ins : DBInstance) (query : String) : Except CEErr EstResult :=
  match ins.query ("EXPLAIN ANALYZE " ++ query) with
  | Except.error e => Except.error e
  | Except.ok rows =>
    let body : Except CEErr EstResult :=
      match rows.columnTypes with
      | Except.error e => Except.error e
      | Except.ok _ =>
        match scanRows rows.scans with
        | Except.error e => Except.error e
        | Except.ok results => extract results ins.version
    match rows.closeErr, body with
    | some ce, Except.ok _ => Except.error ce
    | _, b => b

/-- The (datasetIdx, queryTypeIdx, caseIdx) tag of one worker append. -/
def tagOf (p : Nat × Nat × Nat × EstResult) : Nat × Nat × Nat :=
  (p.1, p.2.1, p.2.2.1)

/-- Strict lexicographic order on (datasetIdx, queryTypeIdx, caseIdx)
tags: the order in which the configuration directs one worker to
process its cases. -/
def tagLT (a b : Nat × Nat × Nat) : Prop :=
  a.1 < b.1 ∨ (a.1 = b.1 ∧ (a.2.1 < b.2.1 ∨ (a.2.1 = b.2.1 ∧ a.2.2 < b.2.2)))

/-- Restriction of a query-type-loop trace to one query-type index. -/
def qtCell (l : List (Nat × Nat × EstResult)) (k : Nat) : List (Nat × EstResult) :=
  (l.filter (fun p => p.1 == k)).map (fun p => p.2)

/-- Restriction of a worker trace to one dataset index. -/
def dsCellOf (tr : List (Nat × Nat × Nat × EstResult)) (d : Nat) :
    List (Nat × Nat × EstResult) :=
  (tr.filter (fun p => p.1 == d)).map (fun p => p.2)

/-- The end-to-end scenario of the spec's testable properties: one
instance, one `mock` dataset, query types `[single-col-point-query]`,
`N = 5`, every generated query executing successfully with plan rows
yielding actual = estimated = 1. -/
def envC1 : OrchEnv :=
  ⟨Except.ok "conf",
   fun _ => Except.ok ⟨["mock"], [QTSingleColPointQuery], 1, 5⟩,
   Except.ok (),
   fun _ _ => Except.ok (),
   fun _ _ _ => Except.ok ["q0", "q1", "q2", "q3", "q4"],
   fun _ _ => Except.ok ⟨1, 1, "v5.0"⟩,
   Except.ok ()⟩

/-- A fully healthy run environment: two instances, one `mock`
dataset, one query type, N = 20, generation returning exactly 20 cases
and every execution succeeding. -/
def envHealthy : OrchEnv :=
  ⟨Except.ok "conf",
   fun _ => Except.ok ⟨["mock"], [QTSingleColPointQuery], 2, 20⟩,
   Except.ok (),
   fun _ _ => Except.ok (),
   fun _ _ _ => Except.ok (List.replicate 20 "q"),
   fun _ _ => Except.ok ⟨1, 1, "v5.0"⟩,
   Except.ok ()⟩

/-- A generation behaviour returning exactly 20 cases for every
request; used to exercise the healthy-run theorems on concrete
inputs. -/
def genGood : Nat → QueryType → Except CEErr (List String) :=
  fun _ _ => Except.ok (List.replicate 20 "q")

/-- An execution behaviour in which every case succeeds with
actual = estimated = 1. -/
def execGood : String → Except CEErr EstResult :=
  fun _ => Except.ok ⟨1, 1, "v"⟩

/-- Per-instance healthy generation. -/
def gensGood : Nat → Nat → QueryType → Except CEErr (List String) :=
  fun _ => genGood

/-- Per-instance healthy execution. -/
def execsGood : Nat → String → Except CEErr EstResult :=
  fun _ => execGood

/-- Generation that fails on instance 1 only. -/
def gensOneBad : Nat → Nat → QueryType → Except CEErr (List String) :=
  fun j => if j = 1 then (fun _ _ => Except.error "gen failed") else genGood

/-- A concrete tabular result: one string column, one row. -/
def rowsW : QueryRows := ⟨Except.ok ["plan"], [Except.ok ["row1"]], none⟩

/-- A concrete instance answering only the wrapped query. -/
def insW : DBInstance :=
  ⟨fun s => if s = "EXPLAIN ANALYZE select 1" then Except.ok rowsW
            else Except.error "unexpected sql", "v1"⟩

/-- A second instance agreeing with insW on the wrapped query and on
the version, but behaving differently on every other SQL string. -/
def insW2 : DBInstance :=
  ⟨fun s => if s = "EXPLAIN ANALYZE select 1" then Except.ok rowsW
            else Except.error "other backend", "v1"⟩

/-- A concrete extraction behaviour. -/
def extractW : List (List String) → String → Except CEErr EstResult :=
  fun _ v => Except.ok ⟨1, 1, v⟩

theorem traceCell_append (t1 t2 : List (Nat × Nat × Nat × EstResult)) (d q : Nat) :
    traceCell (t1 ++ t2) d q = traceCell t1 d q ++ traceCell t2 d q := by
  simp [traceCell, List.filter_append]

theorem applyTrace_cells (insIdx : Nat) (tr : List (Nat × Nat × Nat × EstResult)) :
    ∀ (c : EstResultCollector) (i d q : Nat),
      (applyTrace insIdx tr c).cells i d q =
        if i = insIdx then c.cells i d q ++ traceCell tr d q
        else c.cells i d q := by
  induction tr with
  | nil => intro c i d q; by_cases h : i = insIdx <;> simp [applyTrace, traceCell, h]
  | cons p rest ih =>
    obtain ⟨d0, q0, c0, r⟩ := p
    intro c i d q
    show (applyTrace insIdx rest (c.addEstResult insIdx d0 q0 r)).cells i d q = _
    rw [ih]
    by_cases hi : i = insIdx
    · subst hi
      by_cases hd : d0 = d
      · by_cases hq : q0 = q
        · subst hd; subst hq
          simp [EstResultCollector.addEstResult, traceCell]
        · simp [EstResultCollector.addEstResult, traceCell, hd, hq, Ne.symm hq]
      · simp [EstResultCollector.addEstResult, traceCell, hd, Ne.symm hd]
    · simp [EstResultCollector.addEstResult, traceCell, hi]

theorem applyAllTraces_cells (L : List (Nat × List (Nat × Nat × Nat × EstResult))) :
    ∀ (c : EstResultCollector) (i d q : Nat),
      (applyAllTraces L c).cells i d q =
        c.cells i d q ++
          traceCell ((L.filter (fun p => p.1 == i)).flatMap (fun p => p.2)) d q := by
  induction L with
  | nil => intro c i d q; simp [applyAllTraces, traceCell]
  | cons p rest ih =>
    obtain ⟨j, tr⟩ := p
    intro c i d q
    show (applyAllTraces rest (applyTrace j tr c)).cells i d q = _
    rw [ih, applyTrace_cells]
    by_cases hij : i = j
    · subst hij
      simp [traceCell_append, List.append_assoc]
    · simp [hij, Ne.symm hij]

theorem range_map_filter {α : Type} (f : Nat → α) (n i : Nat) :
    ((List.range n).map (fun j => (j, f j))).filter (fun p => p.1 == i) =
      if i < n then [(i, f i)] else [] := by
  induction n with
  | zero => simp
  | succ n ih =>
    rw [List.range_succ]
    simp only [List.map_append, List.filter_append, ih]
    by_cases h1 : i < n
    · have h2 : i < n + 1 := Nat.lt_succ_of_lt h1
      have h3 : ¬(n = i) := by omega
      simp [h1, h2, h3]
    · by_cases h4 : i = n
      · subst h4
        simp [h1]
      · have h5 : ¬(i < n + 1) := by omega
        simp [h1, h5, Ne.symm h4]

theorem runCollector_cells (gens : Nat → Nat → QueryType → Except CEErr (List String))
    (execs : Nat → String → Except CEErr EstResult) (nIns nDs : Nat)
    (qts : List QueryType) (n : Nat) (i d q : Nat) :
    (runCollector gens execs nIns nDs qts n).cells i d q =
      if i < nIns then traceCell (workerTrace gens execs n qts nDs i) d q
      else [] := by
  rw [runCollector, applyAllTraces_cells, range_map_filter]
  by_cases h : i < nIns
  · simp [h, NewEstResultCollector]
  · simp [h, NewEstResultCollector, traceCell]

theorem caseLoop_ok_length (exec : String → Except CEErr EstResult) (n : Nat) :
    ∀ (i0 : Nat) (qs : List String), (runCaseLoop exec n i0 qs).2 = none →
      (runCaseLoop exec n i0 qs).1.length = qs.length := by
  intro i0 qs
  induction qs generalizing i0 with
  | nil => intro _; rfl
  | cons q rest ih =>
    intro h
    rw [runCaseLoop] at h ⊢
    by_cases hp : progressPanics i0 n
    · simp [hp] at h
    · simp only [hp, if_neg, Bool.false_eq_true, not_false_eq_true, if_false] at h ⊢
      cases hx : exec q with
      | error e => rw [hx] at h; simp at h
      | ok r =>
        rw [hx] at h
        dsimp only at h
        simp only [List.length_cons]
        rw [ih (i0 + 1) h]

theorem caseLoop_tag_lb (exec : String → Except CEErr EstResult) (n : Nat) :
    ∀ (i0 : Nat) (qs : List String) (p : Nat × EstResult),
      p ∈ (runCaseLoop exec n i0 qs).1 → i0 ≤ p.1 := by
  intro i0 qs
  induction qs generalizing i0 with
  | nil => intro p hp; simp [runCaseLoop] at hp
  | cons q rest ih =>
    intro p hp
    rw [runCaseLoop] at hp
    by_cases hc : progressPanics i0 n
    · simp [hc] at hp
    · simp only [hc, Bool.false_eq_true, not_false_eq_true, if_false] at hp
      cases hx : exec q with
      | error e => rw [hx] at hp; simp at hp
      | ok r =>
        rw [hx] at hp
        dsimp only at hp
        simp only [List.mem_cons] at hp
        cases hp with
        | inl h => subst h; exact Nat.le_refl i0
        | inr h => exact Nat.le_of_succ_le (ih (i0 + 1) p h)

theorem qtCell_append (l1 l2 : List (Nat × Nat × EstResult)) (k : Nat) :
    qtCell (l1 ++ l2) k = qtCell l1 k ++ qtCell l2 k := by
  simp [qtCell, List.filter_append]

theorem qtCell_map_self (l : List (Nat × EstResult)) (q0 : Nat) :
    qtCell (l.map (fun p => (q0, p.1, p.2))) q0 = l := by
  simp [qtCell, List.filter_map, Function.comp]

theorem qtCell_map_ne (l : List (Nat × EstResult)) (q0 k : Nat) (h : ¬ q0 = k) :
    qtCell (l.map (fun p => (q0, p.1, p.2))) k = [] := by
  simp [qtCell, List.filter_map, Function.comp, h]

theorem qtLoop_tag_lb (gen : QueryType → Except CEErr (List String))
    (exec : String → Except CEErr EstResult) (n : Nat) :
    ∀ (qts : List QueryType) (q0 : Nat) (p : Nat × Nat × EstResult),
      p ∈ (runQTLoop gen exec n q0 qts).1 → q0 ≤ p.1 := by
  intro qts
  induction qts with
  | nil => intro q0 p hp; simp [runQTLoop] at hp
  | cons qt rest ih =>
    intro q0 p hp
    rw [runQTLoop] at hp
    cases hg : gen qt with
    | error e => rw [hg] at hp; simp at hp
    | ok qs =>
      rw [hg] at hp
      dsimp only at hp
      cases hi : (runCaseLoop exec n 0 qs).2 with
      | some stop =>
        rw [hi] at hp
        dsimp only at hp
        obtain ⟨x, _, hx2⟩ := List.mem_map.mp hp
        subst hx2
        exact Nat.le_refl q0
      | none =>
        rw [hi] at hp
        dsimp only at hp
        rcases List.mem_append.mp hp with hmem | hmem
        · obtain ⟨x, _, hx2⟩ := List.mem_map.mp hmem
          subst hx2
          exact Nat.le_refl q0
        · exact Nat.le_of_succ_le (ih (q0 + 1) p hmem)

theorem qtCell_eq_nil_of_lb (l : List (Nat × Nat × EstResult)) (k : Nat)
    (h : ∀ p ∈ l, k + 1 ≤ p.1) : qtCell l k = [] := by
  have hf : l.filter (fun p => p.1 == k) = [] := by
    rw [List.filter_eq_nil_iff]
    intro p hp
    have := h p hp
    simp only [beq_iff_eq]
    omega
  simp [qtCell, hf]

theorem qtLoop_ok_cell (gen : QueryType → Except CEErr (List String))
    (exec : String → Except CEErr EstResult) (n : Nat) :
    ∀ (qts : List QueryType) (q0 : Nat), (runQTLoop gen exec n q0 qts).2 = none →
      ∀ (k : Nat) (hk : k < qts.length),
        ∃ qs, gen (qts.get ⟨k, hk⟩) = Except.ok qs ∧
          (runCaseLoop exec n 0 qs).2 = none ∧
          qtCell (runQTLoop gen exec n q0 qts).1 (q0 + k) =
            (runCaseLoop exec n 0 qs).1 := by
  intro qts
  induction qts with
  | nil => intro q0 _ k hk; simp at hk
  | cons qt rest ih =>
    intro q0 hnone k hk
    rw [runQTLoop] at hnone ⊢
    cases hg : gen qt with
    | error e => rw [hg] at hnone; simp at hnone
    | ok qs =>
      rw [hg] at hnone
      dsimp only at hnone ⊢
      cases hi : (runCaseLoop exec n 0 qs).2 with
      | some stop => rw [hi] at hnone; simp at hnone
      | none =>
        rw [hi] at hnone
        dsimp only at hnone ⊢
        cases k with
        | zero =>
          refine ⟨qs, hg, hi, ?_⟩
          simp only [Nat.add_zero]
          rw [qtCell_append, qtCell_map_self]
          rw [qtCell_eq_nil_of_lb _ _ (qtLoop_tag_lb gen exec n rest (q0 + 1)),
            List.append_nil]
        | succ k2 =>
          have hk2 : k2 < rest.length := by
            simp only [List.length_cons] at hk
            omega
          obtain ⟨qs2, hgen2, hcase2, hcell2⟩ := ih (q0 + 1) hnone k2 hk2
          refine ⟨qs2, ?_, hcase2, ?_⟩
          · exact hgen2
          · rw [qtCell_append, qtCell_map_ne _ _ _ (by omega)]
            rw [List.nil_append]
            have : q0 + (k2 + 1) = (q0 + 1) + k2 := by omega
            rw [this]
            exact hcell2

theorem dsCellOf_append (l1 l2 : List (Nat × Nat × Nat × EstResult)) (d : Nat) :
    dsCellOf (l1 ++ l2) d = dsCellOf l1 d ++ dsCellOf l2 d := by
  simp [dsCellOf, List.filter_append]

theorem dsCellOf_map_self (l : List (Nat × Nat × EstResult)) (d0 : Nat) :
    dsCellOf (l.map (fun p => (d0, p.1, p.2.1, p.2.2))) d0 = l := by
  simp [dsCellOf, List.filter_map, Function.comp]

theorem dsCellOf_map_ne (l : List (Nat × Nat × EstResult)) (d0 d : Nat)
    (h : ¬ d0 = d) :
    dsCellOf (l.map (fun p => (d0, p.1, p.2.1, p.2.2))) d = [] := by
  simp [dsCellOf, List.filter_map, Function.comp, h]

theorem dsCellOf_eq_nil_of_lb (l : List (Nat × Nat × Nat × EstResult)) (d : Nat)
    (h : ∀ p ∈ l, d + 1 ≤ p.1) : dsCellOf l d = [] := by
  have hf : l.filter (fun p => p.1 == d) = [] := by
    rw [List.filter_eq_nil_iff]
    intro p hp
    have := h p hp
    simp only [beq_iff_eq]
    omega
  simp [dsCellOf, hf]

theorem dsLoop_tag_lb (gen : Nat → QueryType → Except CEErr (List String))
    (exec : String → Except CEErr EstResult) (n : Nat) (qts : List QueryType) :
    ∀ (m d0 : Nat) (p : Nat × Nat × Nat × EstResult),
      p ∈ (runDSLoop gen exec n qts d0 m).1 → d0 ≤ p.1 := by
  intro m
  induction m with
  | zero => intro d0 p hp; simp [runDSLoop] at hp
  | succ m ih =>
    intro d0 p hp
    rw [runDSLoop] at hp
    dsimp only at hp
    cases hi : (runQTLoop (gen d0) exec n 0 qts).2 with
    | some stop =>
      rw [hi] at hp
      dsimp only at hp
      obtain ⟨x, _, hx2⟩ := List.mem_map.mp hp
      subst hx2
      exact Nat.le_refl d0
    | none =>
      rw [hi] at hp
      dsimp only at hp
      rcases List.mem_append.mp hp with hmem | hmem
      · obtain ⟨x, _, hx2⟩ := List.mem_map.mp hmem
        subst hx2
        exact Nat.le_refl d0
      · exact Nat.le_of_succ_le (ih (d0 + 1) p hmem)

theorem dsLoop_ok_cell (gen : Nat → QueryType → Except CEErr (List String))
    (exec : String → Except CEErr EstResult) (n : Nat) (qts : List QueryType) :
    ∀ (m d0 : Nat), (runDSLoop gen exec n qts d0 m).2 = none →
      ∀ d, d < m →
        dsCellOf (runDSLoop gen exec n qts d0 m).1 (d0 + d) =
            (runQTLoop (gen (d0 + d)) exec n 0 qts).1 ∧
          (runQTLoop (gen (d0 + d)) exec n 0 qts).2 = none := by
  intro m
  induction m with
  | zero => intro d0 _ d hd; omega
  | succ m ih =>
    intro d0 hnone d hd
    rw [runDSLoop] at hnone ⊢
    dsimp only at hnone ⊢
    cases hi : (runQTLoop (gen d0) exec n 0 qts).2 with
    | some stop => rw [hi] at hnone; simp at hnone
    | none =>
      rw [hi] at hnone
      dsimp only at hnone ⊢
      cases d with
      | zero =>
        constructor
        · simp only [Nat.add_zero]
          rw [dsCellOf_append, dsCellOf_map_self]
          rw [dsCellOf_eq_nil_of_lb _ _ (dsLoop_tag_lb gen exec n qts m (d0 + 1)),
            List.append_nil]
        · rw [Nat.add_zero]
          exact hi
      | succ d2 =>
        have hd2 : d2 < m := by omega
        obtain ⟨hcell2, hnone2⟩ := ih (d0 + 1) hnone d2 hd2
        constructor
        · rw [dsCellOf_append, dsCellOf_map_ne _ _ _ (by omega)]
          rw [List.nil_append]
          have heq : d0 + (d2 + 1) = (d0 + 1) + d2 := by omega
          rw [heq]
          exact hcell2
        · have heq : d0 + (d2 + 1) = (d0 + 1) + d2 := by omega
          rw [heq]
          exact hnone2

theorem traceCell_decompose (tr : List (Nat × Nat × Nat × EstResult)) (d q : Nat) :
    traceCell tr d q = (qtCell (dsCellOf tr d) q).map (fun p => p.2) := by
  induction tr with
  | nil => rfl
  | cons p rest ih =>
    obtain ⟨d0, q0, i0, r⟩ := p
    by_cases hd : d0 = d
    · by_cases hq : q0 = q
      · subst hd; subst hq
        simp [traceCell, dsCellOf, qtCell, List.filter_cons] at ih ⊢
        exact ih
      · subst hd
        simp [traceCell, dsCellOf, qtCell, List.filter_cons, hq] at ih ⊢
        exact ih
    · simp [traceCell, dsCellOf, qtCell, List.filter_cons, hd] at ih ⊢
      exact ih

theorem worker_ok_traceCell (gen : Nat → QueryType → Except CEErr (List String))
    (exec : String → Except CEErr EstResult) (n : Nat) (qts : List QueryType)
    (nDs : Nat) (hok : (runWorker gen exec n qts nDs).2 = none)
    (d k : Nat) (hd : d < nDs) (hk : k < qts.length) :
    ∃ qs, gen d (qts.get ⟨k, hk⟩) = Except.ok qs ∧
      (runCaseLoop exec n 0 qs).2 = none ∧
      traceCell (runWorker gen exec n qts nDs).1 d k =
        (runCaseLoop exec n 0 qs).1.map (fun p => p.2) := by
  rw [runWorker] at hok ⊢
  have hds := dsLoop_ok_cell gen exec n qts nDs 0 hok d hd
  rw [Nat.zero_add] at hds
  obtain ⟨hcell, hqnone⟩ := hds
  obtain ⟨qs, hgen, hcnone, hqcell⟩ := qtLoop_ok_cell (gen d) exec n qts 0 hqnone k hk
  rw [Nat.zero_add] at hqcell
  refine ⟨qs, hgen, hcnone, ?_⟩
  rw [traceCell_decompose, hcell, hqcell]

theorem worker_ok_cell_length (gen : Nat → QueryType → Except CEErr (List String))
    (exec : String → Except CEErr EstResult) (n : Nat) (qts : List QueryType)
    (nDs : Nat) (hok : (runWorker gen exec n qts nDs).2 = none)
    (hlen : ∀ d qt qs, gen d qt = Except.ok qs → qs.length = n)
    (d k : Nat) (hd : d < nDs) (hk : k < qts.length) :
    (traceCell (runWorker gen exec n qts nDs).1 d k).length = n := by
  obtain ⟨qs, hgen, hcnone, hcell⟩ :=
    worker_ok_traceCell gen exec n qts nDs hok d k hd hk
  rw [hcell, List.length_map, caseLoop_ok_length exec n 0 qs hcnone]
  exact hlen d _ qs hgen

theorem caseLoop_pairwise (exec : String → Except CEErr EstResult) (n : Nat) :
    ∀ (i0 : Nat) (qs : List String),
      List.Pairwise (fun (a b : Nat × EstResult) => a.1 < b.1)
        (runCaseLoop exec n i0 qs).1 := by
  intro i0 qs
  induction qs generalizing i0 with
  | nil => simp [runCaseLoop]
  | cons q rest ih =>
    rw [runCaseLoop]
    by_cases hp : progressPanics i0 n
    · simp [hp]
    · simp only [hp, Bool.false_eq_true, not_false_eq_true, if_false]
      cases hx : exec q with
      | error e => simp
      | ok r =>
        dsimp only
        rw [List.pairwise_cons]
        constructor
        · intro b hb
          have := caseLoop_tag_lb exec n (i0 + 1) rest b hb
          omega
        · exact ih (i0 + 1)

theorem qtLoop_pairwise (gen : QueryType → Except CEErr (List String))
    (exec : String → Except CEErr EstResult) (n : Nat) :
    ∀ (qts : List QueryType) (q0 : Nat),
      List.Pairwise
        (fun (a b : Nat × Nat × EstResult) =>
          a.1 < b.1 ∨ (a.1 = b.1 ∧ a.2.1 < b.2.1))
        (runQTLoop gen exec n q0 qts).1 := by
  intro qts
  induction qts with
  | nil => intro q0; simp [runQTLoop]
  | cons qt rest ih =>
    intro q0
    rw [runQTLoop]
    cases hg : gen qt with
    | error e => simp
    | ok qs =>
      dsimp only
      have happ : List.Pairwise
          (fun (a b : Nat × Nat × EstResult) =>
            a.1 < b.1 ∨ (a.1 = b.1 ∧ a.2.1 < b.2.1))
          ((runCaseLoop exec n 0 qs).1.map (fun p => (q0, p.1, p.2))) := by
        refine List.Pairwise.map _ ?_ (caseLoop_pairwise exec n 0 qs)
        intro a b hab
        exact Or.inr ⟨rfl, hab⟩
      cases hi : (runCaseLoop exec n 0 qs).2 with
      | some stop => exact happ
      | none =>
        dsimp only
        rw [List.pairwise_append]
        refine ⟨happ, ih (q0 + 1), ?_⟩
        intro a ha b hb
        obtain ⟨x, _, hx2⟩ := List.mem_map.mp ha
        have hlb := qtLoop_tag_lb gen exec n rest (q0 + 1) b hb
        subst hx2
        exact Or.inl (by omega)

theorem dsLoop_pairwise (gen : Nat → QueryType → Except CEErr (List String))
    (exec : String → Except CEErr EstResult) (n : Nat) (qts : List QueryType) :
    ∀ (m d0 : Nat),
      List.Pairwise (fun x y => tagLT (tagOf x) (tagOf y))
        (runDSLoop gen exec n qts d0 m).1 := by
  intro m
  induction m with
  | zero => intro d0; simp [runDSLoop]
  | succ m ih =>
    intro d0
    rw [runDSLoop]
    dsimp only
    have happ : List.Pairwise (fun x y => tagLT (tagOf x) (tagOf y))
        ((runQTLoop (gen d0) exec n 0 qts).1.map
          (fun p => (d0, p.1, p.2.1, p.2.2))) := by
      refine List.Pairwise.map _ ?_ (qtLoop_pairwise (gen d0) exec n qts 0)
      intro a b hab
      exact Or.inr ⟨rfl, hab⟩
    cases hi : (runQTLoop (gen d0) exec n 0 qts).2 with
    | some stop => exact happ
    | none =>
      dsimp only
      rw [List.pairwise_append]
      refine ⟨happ, ih (d0 + 1), ?_⟩
      intro a ha b hb
      obtain ⟨x, _, hx2⟩ := List.mem_map.mp ha
      have hlb := dsLoop_tag_lb gen exec n qts m (d0 + 1) b hb
      subst hx2
      simp only [tagLT, tagOf]
      omega

theorem firstInsError_at (errs : List (Option CEErr)) :
    ∀ (k : Nat) (e : CEErr), errs.get? k = some (some e) →
      (∀ j, j < k → errs.get? j = some none) →
      firstInsError errs = some e := by
  induction errs with
  | nil => intro k e hk _; simp at hk
  | cons x rest ih =>
    intro k e hk hbefore
    cases k with
    | zero =>
      simp at hk
      subst hk
      rfl
    | succ k2 =>
      have h0 : x = none := by
        have := hbefore 0 (Nat.succ_pos k2)
        simpa using this
      subst h0
      show firstInsError rest = some e
      refine ih k2 e ?_ ?_
      · simpa using hk
      · intro j hj
        have := hbefore (j + 1) (Nat.succ_lt_succ hj)
        simpa using this

theorem firstInsError_all_none (errs : List (Option CEErr))
    (h : ∀ x ∈ errs, x = none) : firstInsError errs = none := by
  induction errs with
  | nil => rfl
  | cons x rest ih =>
    have hx : x = none := h x (List.mem_cons_self x rest)
    subst hx
    exact ih (fun y hy => h y (List.mem_cons_of_mem none hy))

/-- Claim C1: in the end-to-end scenario (1 instance, 1 mock dataset,
query types [single-col-point-query], N = 5, all queries succeeding
with actual = estimated = 1), the run does NOT complete: at case index
1 the progress condition divides by zero (N/20 = 0) and the worker
goroutine panics, crashing the process; at that point collector cell
(0,0,0) holds a single zero-error EstResult, not 5. -/
theorem run_mock_n5_panics :
    (RunCETestWithConfig envC1).outcome = RunOutcome.panickedWorker ∧
    (RunCETestWithConfig envC1).collector.cells 0 0 0 =
      [⟨1, 1, "v5.0"⟩] ∧
    ((RunCETestWithConfig envC1).collector.cells 0 0 0).length ≠ 5 := by
  refine ⟨rfl, rfl, ?_⟩
  decide

/-- Claim C2: the progress-report condition is NOT semantically inert
for every N ≥ 1: for N = 2 (any 2 ≤ N ≤ 19 with at least two generated
cases) the second operand of the condition evaluates 1 % (N/20) with
N/20 = 0, a Go run-time panic, so the worker aborts after one case
instead of processing both. -/
theorem progress_check_panics_for_small_n :
    progressPanics 1 2 = true ∧
    (runWorker (fun _ _ => Except.ok ["a", "b"])
        (fun _ => Except.ok ⟨1, 1, "v"⟩) 2 [QTSingleColPointQuery] 1).2 =
      some WorkerStop.panicked ∧
    (runWorker (fun _ _ => Except.ok ["a", "b"])
        (fun _ => Except.ok ⟨1, 1, "v"⟩) 2 [QTSingleColPointQuery] 1).1.length =
      1 := by
  exact ⟨rfl, rfl, rfl⟩

/-- Claim C3: DecodeOption validates dataset names after lowercasing
while RunCETestWithConfig constructs datasets with a case-sensitive
lookup: for any configuration whose dataset names all validate after
lowercasing but one of which is not itself a datasetMap key, decoding
succeeds, yet the construction loop fetches a nil constructor for that
name and panics (crashes) instead of failing with a configuration
error, no matter how benign the real constructors are. -/
theorem dataset_name_case_mismatch (names : List String) (nm : String)
    (hmem : nm ∈ names)
    (hall : ∀ x ∈ names, (datasetMap (goToLower x)).isSome = true)
    (hnone : datasetMap nm = none) :
    validateDatasetNames names = Except.ok () ∧
    constructorLookup nm = none ∧
    ∀ (construct : Nat → Except CEErr Unit), (∀ j, construct j = Except.ok ()) →
      ∀ j0, constructRow construct j0 names = PhaseResult.panic := by
  refine ⟨?_, hnone, ?_⟩
  · clear hmem hnone
    induction names with
    | nil => rfl
    | cons x rest ih =>
      rw [validateDatasetNames]
      rw [if_pos (hall x (List.mem_cons_self x rest))]
      exact ih (fun y hy => hall y (List.mem_cons_of_mem x hy))
  · intro construct hok
    induction names with
    | nil => simp at hmem
    | cons x rest ih =>
      intro j0
      rw [constructRow]
      cases hx : constructorLookup x with
      | none => rfl
      | some kind =>
        rw [hok j0]
        have hne : nm ≠ x := by
          intro h
          subst h
          simp only [constructorLookup] at hx
          rw [hnone] at hx
          cases hx
        have hmem2 : nm ∈ rest := by
          rcases List.mem_cons.mp hmem with h | h
          · exact absurd h hne
          · exact h
        exact ih hmem2 (fun y hy => hall y (List.mem_cons_of_mem x hy)) (j0 + 1)

/-- Claim C3 witness: the concrete name "Mock" lowercases to the
registered kind "mock", so decoding accepts it, while the
case-sensitive construction lookup misses and the construction loop
panics. -/
theorem dataset_name_case_mismatch_witness :
    validateDatasetNames ["Mock"] = Except.ok () ∧
    constructorLookup "Mock" = none ∧
    constructRow (fun _ => Except.ok ()) 0 ["Mock"] = PhaseResult.panic := by
  obtain ⟨h1, h2, h3⟩ := dataset_name_case_mismatch ["Mock"] "Mock"
    (by decide) (by decide) (by decide)
  exact ⟨h1, h2, h3 (fun _ => Except.ok ()) (fun _ => rfl) 0⟩

/-- Claim C4: QueryType textual names round-trip: unmarshalling the
registered name of any variant yields that variant back, and
unmarshalling any string outside the registered name set of the 10
variants fails with the unknown-query-type error instead of defaulting
to some variant. -/
theorem queryType_name_roundtrip :
    (∀ q : QueryType, QueryType.unmarshalText (qtNameMap q) = Except.ok q) ∧
    (∀ s : String, s ∉ allQueryTypes.map qtNameMap →
      QueryType.unmarshalText s = Except.error ("unknown query-type=" ++ s)) := by
  constructor
  · intro q
    cases q <;> rfl
  · intro s hs
    have hf : allQueryTypes.find? (fun qt => qtNameMap qt = s) = none := by
      rw [List.find?_eq_none]
      intro x hx
      simp only [decide_eq_true_eq]
      intro heq
      exact hs (heq ▸ List.mem_map_of_mem qtNameMap hx)
    rw [QueryType.unmarshalText, hf]

/-- Claim C4 witness: the round trip at the variant named "group" and
the failure of the unregistered name "bogus". -/
theorem queryType_name_roundtrip_witness :
    QueryType.unmarshalText (qtNameMap QTGroup) = Except.ok QTGroup ∧
    QueryType.unmarshalText "bogus" = Except.error "unknown query-type=bogus" := by
  exact ⟨queryType_name_roundtrip.1 QTGroup,
    queryType_name_roundtrip.2 "bogus" (by decide)⟩

/-- Claim C7: in a run over nIns instances, nDs datasets and the
configured query types with uniform case count n, when generation
always yields exactly n cases and every worker completes without a
recorded error or panic, every in-range collector cell (i, d, k) holds
exactly n observations. -/
theorem collector_cells_full
    (gens : Nat → Nat → QueryType → Except CEErr (List String))
    (execs : Nat → String → Except CEErr EstResult)
    (nIns nDs : Nat) (qts : List QueryType) (n : Nat)
    (hlen : ∀ i d qt qs, gens i d qt = Except.ok qs → qs.length = n)
    (hok : ∀ i, i < nIns → workerStop gens execs n qts nDs i = none) :
    ∀ i d k, i < nIns → d < nDs → k < qts.length →
      ((runCollector gens execs nIns nDs qts n).cells i d k).length = n := by
  intro i d k hi hd hk
  rw [runCollector_cells, if_pos hi]
  exact worker_ok_cell_length (gens i) (execs i) n qts nDs (hok i hi)
    (fun d2 qt qs h => hlen i d2 qt qs h) d k hd hk

/-- Claim C7 witness: one healthy instance, one dataset, one query
type, n = 20: cell (0,0,0) holds exactly 20 observations. -/
theorem collector_cells_full_witness :
    ((runCollector gensGood execsGood 1 1 [QTSingleColPointQuery] 20).cells
      0 0 0).length = 20 := by
  refine collector_cells_full gensGood execsGood 1 1 [QTSingleColPointQuery] 20
    ?_ ?_ 0 0 0 (by decide) (by decide) (by decide)
  · intro i d qt qs h
    cases h
    rfl
  · intro i _
    rfl

/-- Claim C5: worker failure is isolated.  Changing the behaviour of
instance k arbitrarily (including making it fail during generation or
execution) does not change instance i's collector cells or stop status
for any i different from k, and an instance i whose worker completes
with no failure still reaches its full n observations in each of its
nDs times (number of query types) cells. -/
theorem worker_failure_isolation
    (gens gens2 : Nat → Nat → QueryType → Except CEErr (List String))
    (execs execs2 : Nat → String → Except CEErr EstResult)
    (nIns nDs : Nat) (qts : List QueryType) (n : Nat) (k i : Nat)
    (hi : i < nIns) (hik : i ≠ k)
    (hg : ∀ j, j ≠ k → gens2 j = gens j)
    (he : ∀ j, j ≠ k → execs2 j = execs j) :
    (∀ d q, (runCollector gens2 execs2 nIns nDs qts n).cells i d q =
        (runCollector gens execs nIns nDs qts n).cells i d q) ∧
    workerStop gens2 execs2 n qts nDs i = workerStop gens execs n qts nDs i ∧
    ((∀ d qt qs, gens i d qt = Except.ok qs → qs.length = n) →
      workerStop gens execs n qts nDs i = none →
      ∀ d q2, d < nDs → q2 < qts.length →
        ((runCollector gens execs nIns nDs qts n).cells i d q2).length = n) := by
  have hgi := hg i hik
  have hei := he i hik
  refine ⟨?_, ?_, ?_⟩
  · intro d q
    rw [runCollector_cells, runCollector_cells, if_pos hi, if_pos hi]
    unfold workerTrace
    rw [hgi, hei]
  · unfold workerStop
    rw [hgi, hei]
  · intro hlen hok d q2 hd hq
    rw [runCollector_cells, if_pos hi]
    exact worker_ok_cell_length (gens i) (execs i) n qts nDs hok hlen d q2 hd hq

/-- Claim C5 witness: with two instances where instance 1's generation
is broken and instance 0 is healthy, instance 0's cell (0,0,0) is
unaffected and still reaches its full 20 observations. -/
theorem worker_failure_isolation_witness :
    (runCollector gensOneBad execsGood 2 1 [QTSingleColPointQuery] 20).cells
        0 0 0 =
      (runCollector gensGood execsGood 2 1 [QTSingleColPointQuery] 20).cells
        0 0 0 ∧
    ((runCollector gensGood execsGood 2 1 [QTSingleColPointQuery] 20).cells
        0 0 0).length = 20 := by
  obtain ⟨h1, h2, h3⟩ := worker_failure_isolation gensGood gensOneBad
    execsGood execsGood 2 1 [QTSingleColPointQuery] 20 1 0
    (by decide) (by decide)
    (by
      intro j hj
      simp only [gensOneBad, gensGood, if_neg hj])
    (fun j _ => rfl)
  refine ⟨h1 0 0, h3 ?_ rfl 0 0 (by decide) (by decide)⟩
  intro d qt qs h
  cases h
  rfl

/-- Claim C9: within one worker, appends happen in exactly the
configured (dataset, query-type, case-index) order: the worker's
append trace is strictly increasing in the lexicographic order of its
tags, and on a completed run each cell's contents are exactly the
execution results of that cell's generated case sequence, in generated
order. -/
theorem worker_appends_in_order
    (gen : Nat → QueryType → Except CEErr (List String))
    (exec : String → Except CEErr EstResult) (n : Nat) (qts : List QueryType)
    (nDs : Nat) :
    List.Pairwise (fun x y => tagLT (tagOf x) (tagOf y))
      (runWorker gen exec n qts nDs).1 ∧
    ((runWorker gen exec n qts nDs).2 = none →
      ∀ d k (hd : d < nDs) (hk : k < qts.length),
        ∃ qs, gen d (qts.get ⟨k, hk⟩) = Except.ok qs ∧
          (runCaseLoop exec n 0 qs).2 = none ∧
          traceCell (runWorker gen exec n qts nDs).1 d k =
            (runCaseLoop exec n 0 qs).1.map (fun p => p.2)) := by
  constructor
  · exact dsLoop_pairwise gen exec n qts nDs 0
  · intro hok d k hd hk
    exact worker_ok_traceCell gen exec n qts nDs hok d k hd hk

/-- Claim C9 witness: the healthy worker's trace is lexicographically
ordered and its (0,0) cell is the case results in generated order. -/
theorem worker_appends_in_order_witness :
    List.Pairwise (fun x y => tagLT (tagOf x) (tagOf y))
      (runWorker genGood execGood 20 [QTSingleColPointQuery] 1).1 ∧
    ∃ qs, genGood 0 QTSingleColPointQuery = Except.ok qs ∧
      (runCaseLoop execGood 20 0 qs).2 = none ∧
      traceCell (runWorker genGood execGood 20 [QTSingleColPointQuery] 1).1 0 0 =
        (runCaseLoop execGood 20 0 qs).1.map (fun p => p.2) := by
  exact ⟨(worker_appends_in_order genGood execGood 20 [QTSingleColPointQuery] 1).1,
    (worker_appends_in_order genGood execGood 20 [QTSingleColPointQuery] 1).2
      rfl 0 0 (by decide) (by decide)⟩

/-- Claim C6: after the join, the orchestrator scans the per-instance
error slots in fixed instance-index order: if slot k holds the first
recorded error e (all earlier slots empty), the run fails with e; if
every slot is empty, the run proceeds to reporting. -/
theorem first_instance_error_surfaced (errs : List (Option CEErr))
    (report : Except CEErr Unit) :
    (∀ k e, errs.get? k = some (some e) →
      (∀ j, j < k → errs.get? j = some none) →
      finalizeRun errs report = Except.error e) ∧
    ((∀ x ∈ errs, x = none) → finalizeRun errs report = report) := by
  constructor
  · intro k e hk hb
    rw [finalizeRun, firstInsError_at errs k e hk hb]
  · intro h
    rw [finalizeRun, firstInsError_all_none errs h]

/-- Claim C6 witness: with slots [none, some e] the run fails with e;
with all slots empty the reporting result is returned. -/
theorem first_instance_error_surfaced_witness :
    finalizeRun [none, some "exec failed"] (Except.ok ()) =
      Except.error "exec failed" ∧
    finalizeRun [none, none] (Except.ok ()) = Except.ok () := by
  constructor
  · refine (first_instance_error_surfaced [none, some "exec failed"]
      (Except.ok ())).1 1 "exec failed" rfl ?_
    intro j hj
    have hj0 : j = 0 := by omega
    subst hj0
    rfl
  · refine (first_instance_error_surfaced [none, none] (Except.ok ())).2 ?_
    intro x hx
    simp only [List.mem_cons, List.not_mem_nil, or_false] at hx
    rcases hx with h | h <;> exact h

/-- Claim C8: on every exit path of RunCETestWithConfig — early read,
decode or connect failure (where no connection was opened), dataset
construction failure, a recorded instance error, report failure, the
nil-constructor panic unwinding the main goroutine, and normal
completion — every opened instance connection is closed exactly once
by the deferred cleanup.  (The only execution with unclosed
connections is a worker-goroutine panic, which aborts the process
without the function ever exiting.) -/
theorem connections_closed_once (env : OrchEnv)
    (h : (RunCETestWithConfig env).outcome ≠ RunOutcome.panickedWorker) :
    (RunCETestWithConfig env).closes =
      List.replicate (RunCETestWithConfig env).connected 1 := by
  rw [RunCETestWithConfig] at h ⊢
  cases hr : env.readFile with
  | error e => rfl
  | ok content =>
    rw [hr] at h
    dsimp only at h ⊢
    cases hd : DecodeOption env.tomlDecode content with
    | error e => rfl
    | ok cfg =>
      rw [hd] at h
      dsimp only at h ⊢
      cases hc : env.connectOK with
      | error e => rfl
      | ok u =>
        rw [hc] at h
        dsimp only at h ⊢
        cases hp : constructPhase env.construct cfg.datasetNames 0 cfg.nIns with
        | panic => rfl
        | err e => rfl
        | ok =>
          rw [hp] at h
          dsimp only at h ⊢
          by_cases hany : ((List.range cfg.nIns).map
              (fun i => workerStop env.gens env.execs cfg.n cfg.qts
                cfg.datasetNames.length i)).any
              (fun s => s = some WorkerStop.panicked)
          · rw [if_pos hany] at h
            exact absurd rfl h
          · rw [if_neg hany] at h ⊢
            cases hf : finalizeRun (((List.range cfg.nIns).map
                (fun i => workerStop env.gens env.execs cfg.n cfg.qts
                  cfg.datasetNames.length i)).map
                (fun s => match s with
                  | some (WorkerStop.recorded e) => some e
                  | _ => none)) env.report with
            | error e => rfl
            | ok u2 => rfl

/-- Claim C8 witness: a healthy two-instance run exits normally with
both connections closed exactly once. -/
theorem connections_closed_once_witness :
    (RunCETestWithConfig envHealthy).closes =
      List.replicate (RunCETestWithConfig envHealthy).connected 1 ∧
    (RunCETestWithConfig envHealthy).closes = [1, 1] := by
  exact ⟨connections_closed_once envHealthy (by decide), rfl⟩

/-- Claim C10: the Case Runner sends exactly the string
"EXPLAIN ANALYZE " concatenated with the generated query — two
instances agreeing on that one SQL string and on their version are
indistinguishable to it — and, when the call, the column-type
introspection, every row scan and the close all succeed, it hands the
scanned string-typed rows together with the instance's version string
to the extraction step. -/
theorem runOneEstCase_explain_analyze
    (extract : List (List String) → String → Except CEErr EstResult)
    (ins ins2 : DBInstance) (q : String)
    (hv : ins2.version = ins.version)
    (hq : ins2.query ("EXPLAIN ANALYZE " ++ q) = ins.query ("EXPLAIN ANALYZE " ++ q)) :
    runOneEstCase extract ins2 q = runOneEstCase extract ins q ∧
    (∀ rows results,
      ins.query ("EXPLAIN ANALYZE " ++ q) = Except.ok rows →
      (∃ ts, rows.columnTypes = Except.ok ts) →
      scanRows rows.scans = Except.ok results →
      rows.closeErr = none →
      runOneEstCase extract ins q = extract results ins.version) := by
  constructor
  · rw [runOneEstCase, runOneEstCase, hq, hv]
  · intro rows results hrows hts hscan hclose
    obtain ⟨ts, hts⟩ := hts
    rw [runOneEstCase, hrows]
    dsimp only
    rw [hts, hscan, hclose]

/-- Claim C10 witness: on a concrete instance answering only the
wrapped query "EXPLAIN ANALYZE select 1", the Case Runner is
insensitive to the behaviour of the instance on any other SQL string
and returns the extraction of the scanned rows with version "v1". -/
theorem runOneEstCase_explain_analyze_witness :
    runOneEstCase extractW insW2 "select 1" =
      runOneEstCase extractW insW "select 1" ∧
    runOneEstCase extractW insW "select 1" = extractW [["row1"]] "v1" := by
  obtain ⟨h1, h2⟩ := runOneEstCase_explain_analyze extractW insW insW2
    "select 1" rfl rfl
  exact ⟨h1, h2 rowsW [["row1"]] rfl ⟨["plan"], rfl⟩ rfl rfl⟩
